import Mathlib

/-!
Verification of the sheet-extraction core of `src/main.py`
(oil/fuel stock-level spreadsheet exporter).

The embedding models:
* a cell as `Option String` (`none` = empty cell, i.e. Python `None`/NaN);
* a raw worksheet row as a list of cells (openpyxl `Worksheet.values` yields
  a row sequence; the extractors consume it positionally);
* `pandas.DataFrame(data, columns=cols)` on a list of row tuples
  (`mkDataFrame`): an empty data list gives a frame with the given columns
  and no records; otherwise rows are padded to the maximal row width with
  `none` and construction fails (pandas `ValueError`) when that width
  differs from the number of column labels;
* `DataFrame.dropna()` (`dropnaRecords`): drop every record containing an
  empty value;
* `df[df.columns[:-2]]` (`mainTrim`): label-based column selection — for
  each label among all but the last two, every position carrying that label
  is selected (pandas indexing on a possibly non-unique column axis);
* the dispatcher `extract_data_from_excel`: a registry iterated in
  insertion order over a result dict pre-filled with `none` placeholders,
  replacing the placeholder only when the extracted frame is non-empty and
  recording a warning otherwise; sheet lookups and extractor failures
  short-circuit the run.
-/

/-- A spreadsheet cell value; `none` is an empty cell (Python `None`,
which pandas treats as missing/NaN). Text, numbers and dates are
abstracted as strings. -/
abbrev Cell := Option String

/-- One raw worksheet row, as yielded by `Worksheet.values`. -/
abbrev RawRow := List Cell

/-- A cleaned tabular result: the pandas `DataFrame` produced by an
extractor, reduced to its column labels and its records. -/
structure Table where
  columns : List Cell
  records : List (List Cell)
deriving DecidableEq, Repr

/-- Errors of the extraction run. `MalformedSheet` is the `IndexError` the
source raises when the header row at the magic offset is missing (the spec
names this condition `MalformedSheet`); `ColumnMismatch` is the pandas
`ValueError` raised when the data width differs from the number of column
labels; `SheetNotFound` is the `KeyError` from `get_sheet_by_name`. -/
inductive ExtractErr where
  | MalformedSheet
  | ColumnMismatch
  | SheetNotFound
deriving DecidableEq, Repr

/-- Width of the widest data row, as inferred by the pandas constructor
from a list of row tuples. -/
def maxWidth (data : List RawRow) : Nat :=
  data.foldr (fun r acc => max r.length acc) 0

/-- Pad a row with empty cells up to width `n` (pandas fills missing
trailing entries of a short row with NaN). -/
def padTo (n : Nat) (r : RawRow) : RawRow :=
  r ++ List.replicate (n - r.length) none

/-- `pandas.DataFrame(data, columns=cols)` for `data` a list of row
tuples: with no data rows the frame has the given columns and no records;
otherwise rows are padded to the maximal width and construction raises
`ValueError` ("N columns passed, passed data had M columns") when that
width is not the number of labels. -/
def mkDataFrame (data : List RawRow) (cols : RawRow) : Except ExtractErr Table :=
  if data.isEmpty then .ok ⟨cols, []⟩
  else if maxWidth data ≠ cols.length then .error .ColumnMismatch
  else .ok ⟨cols, data.map (padTo cols.length)⟩

/-- A record free of empty values (kept by `DataFrame.dropna()`). -/
def rowComplete (r : List Cell) : Bool :=
  r.all (fun c => c.isSome)

/-- `DataFrame.dropna()`: discard every record containing an empty value. -/
def dropnaRecords (t : Table) : Table :=
  ⟨t.columns, t.records.filter rowComplete⟩

/-- All positions of `cols` carrying label `l`, in increasing order
(pandas label lookup on a possibly non-unique column axis). -/
def matchIdx (cols : List Cell) (l : Cell) : List Nat :=
  match cols with
  | [] => []
  | c :: cs => (if c = l then [0] else []) ++ (matchIdx cs l).map (· + 1)

/-- Positions selected by a list of labels: for each label in order, every
position carrying it (pandas `df[label_list]` semantics). -/
def selectPositions (cols labels : List Cell) : List Nat :=
  (labels.map (matchIdx cols)).flatten

/-- Project a row onto the given positions (missing positions read as
empty; never exercised in bounds here). -/
def selectRow (ps : List Nat) (r : List Cell) : List Cell :=
  ps.map (fun j => r.getD j none)

/-- The positions `df[df.columns[:-2]]` selects: every position whose
label occurs among all but the last two labels. -/
def mainPositions (cols : List Cell) : List Nat :=
  selectPositions cols (cols.take (cols.length - 2))

/-- `df[df.columns[:-2]]`: label-based selection of all but the last two
column labels, applied to the header and to every record. -/
def mainTrim (t : Table) : Table :=
  ⟨selectRow (mainPositions t.columns) t.columns,
   t.records.map (selectRow (mainPositions t.columns))⟩

/-- `extract_data_sheet`: header row taken at 0-based offset 6
(`islice(data, 6, 7)`, `IndexError` if absent), all later rows become the
data of the frame. -/
def extract_data_sheet (rows : List RawRow) : Except ExtractErr Table :=
  match rows[6]? with
  | none => .error .MalformedSheet
  | some cols => mkDataFrame (rows.drop 7) cols

/-- `extract_typical_levels_sheet`: header row at 0-based offset 8, later
rows become the data, then `dropna()`. -/
def extract_typical_levels_sheet (rows : List RawRow) : Except ExtractErr Table :=
  match rows[8]? with
  | none => .error .MalformedSheet
  | some cols => (mkDataFrame (rows.drop 9) cols).map dropnaRecords

/-- `extract_stock_data_sheet`: header row at 0-based offset 6, later rows
become the data (same body as `extract_data_sheet`). -/
def extract_stock_data_sheet (rows : List RawRow) : Except ExtractErr Table :=
  match rows[6]? with
  | none => .error .MalformedSheet
  | some cols => mkDataFrame (rows.drop 7) cols

/-- `extract_main_table_sheet`: header row at 0-based offset 7, later rows
become the data, then `df[df.columns[:-2]]`. -/
def extract_main_table_sheet (rows : List RawRow) : Except ExtractErr Table :=
  match rows[7]? with
  | none => .error .MalformedSheet
  | some cols => (mkDataFrame (rows.drop 8) cols).map mainTrim

/-- A loaded workbook: association of sheet names to their row
sequences. -/
abbrev Workbook := List (String × List RawRow)

/-- `wb.get_sheet_by_name(name)`, minus the `KeyError` (handled at the
call site). -/
def lookupSheet (wb : Workbook) (name : String) : Option (List RawRow) :=
  List.lookup name wb

/-- The dispatcher's running state: the result dict (which keeps one entry
per registered sheet for the whole run) and the warnings logged so far. -/
structure ExtractionResult where
  mapping : List (String × Option Table)
  warnings : List String
deriving DecidableEq, Repr

/-- `sheets_to_be_extracted`: registry of sheet name to handler, in the
source's insertion order. -/
def sheetRegistry : List (String × (List RawRow → Except ExtractErr Table)) :=
  [("Main table", extract_main_table_sheet),
   ("Typical levels", extract_typical_levels_sheet),
   ("Data", extract_data_sheet),
   ("Stock data", extract_stock_data_sheet)]

/-- The `extracted_data` dict as initialised: every registered sheet keyed
to the `None` placeholder. -/
def initialMapping : List (String × Option Table) :=
  [("Main table", none), ("Typical levels", none),
   ("Data", none), ("Stock data", none)]

/-- `extracted_data.update({sheet: extract})`: replace the value stored at
`k` (every registered key is present from initialisation on, so the dict
update is an in-place replacement). -/
def updateMapping (m : List (String × Option Table)) (k : String) (v : Option Table) :
    List (String × Option Table) :=
  m.map (fun p => if p.1 == k then (p.1, v) else p)

/-- `DataFrame.empty`: true when either axis has length zero. -/
def tableEmpty (t : Table) : Bool :=
  t.records.isEmpty || t.columns.isEmpty

/-- The loop body after a successful extraction: a non-empty frame
replaces the placeholder, an empty one only logs a warning. -/
def includeStep (st : ExtractionResult) (name : String) (t : Table) : ExtractionResult :=
  if tableEmpty t then ⟨st.mapping, st.warnings ++ [name]⟩
  else ⟨updateMapping st.mapping name (some t), st.warnings⟩

/-- One iteration of the dispatcher loop: sheet lookup (`KeyError` when
absent), handler invocation (failures propagate), result bookkeeping. -/
def dispatchStep (wb : Workbook) (st : ExtractionResult)
    (entry : String × (List RawRow → Except ExtractErr Table)) :
    Except ExtractErr ExtractionResult :=
  match lookupSheet wb entry.1 with
  | none => .error .SheetNotFound
  | some rows => (entry.2 rows).map (includeStep st entry.1)

/-- `extract_data_from_excel`: run every registered handler in registry
order over the pre-filled result dict. -/
def extract_data_from_excel (wb : Workbook) : Except ExtractErr ExtractionResult :=
  sheetRegistry.foldlM (dispatchStep wb) ⟨initialMapping, []⟩

/-! ### Basic facts about the DataFrame constructor -/

theorem maxWidth_le_of_mem {data : List RawRow} {r : RawRow} (h : r ∈ data) :
    r.length ≤ maxWidth data := by
  induction data with
  | nil => cases h
  | cons d ds ih =>
    cases h with
    | head => simp [maxWidth]
    | tail _ h =>
      have := ih h
      simp only [maxWidth, List.foldr_cons] at *
      omega

theorem padTo_length {n : Nat} {r : RawRow} (h : r.length ≤ n) :
    (padTo n r).length = n := by
  simp [padTo]
  omega

theorem padTo_eq_self {n : Nat} {r : RawRow} (h : r.length = n) :
    padTo n r = r := by
  simp [padTo, h, Nat.sub_self]

theorem mkDataFrame_ok {data : List RawRow} {cols : RawRow} {t : Table}
    (h : mkDataFrame data cols = .ok t) :
    t.columns = cols ∧ t.records = data.map (padTo cols.length) ∧
      ∀ r ∈ data, r.length ≤ cols.length := by
  unfold mkDataFrame at h
  by_cases hd : data.isEmpty
  · rw [if_pos hd] at h
    cases h
    have hnil : data = [] := List.isEmpty_iff.mp hd
    subst hnil
    simp
  · rw [if_neg hd] at h
    by_cases hw : maxWidth data ≠ cols.length
    · rw [if_pos hw] at h
      cases h
    · rw [if_neg hw] at h
      cases h
      push_neg at hw
      refine ⟨rfl, rfl, fun r hr => ?_⟩
      calc r.length ≤ maxWidth data := maxWidth_le_of_mem hr
        _ = cols.length := hw

theorem mkDataFrame_record_length {data : List RawRow} {cols : RawRow} {t : Table}
    (h : mkDataFrame data cols = .ok t) :
    ∀ r ∈ t.records, r.length = cols.length := by
  obtain ⟨-, hrec, hle⟩ := mkDataFrame_ok h
  intro r hr
  rw [hrec] at hr
  obtain ⟨r0, hr0, rfl⟩ := List.mem_map.mp hr
  exact padTo_length (hle r0 hr0)

theorem except_map_ok {α β : Type} {g : α → β} {x : Except ExtractErr α} {b : β}
    (h : x.map g = .ok b) : ∃ a, x = .ok a ∧ g a = b := by
  cases x with
  | error e => simp [Except.map] at h
  | ok a =>
    refine ⟨a, rfl, ?_⟩
    simpa [Except.map] using h

/-! ### C1 -/

/-- C1: every extractor takes the row at its sheet's fixed 0-based offset
as the Header (6 for "Data", 8 for "Typical levels", 6 for "Stock data",
7 for "Main table") and builds its records exactly from the rows after
that offset. -/
theorem c1_header_offsets (rows : List RawRow) :
    (∀ cols t, rows[6]? = some cols → extract_data_sheet rows = .ok t →
      t.columns = cols ∧ t.records = (rows.drop 7).map (padTo cols.length)) ∧
    (∀ cols t, rows[8]? = some cols → extract_typical_levels_sheet rows = .ok t →
      t.columns = cols ∧
        t.records = ((rows.drop 9).map (padTo cols.length)).filter rowComplete) ∧
    (∀ cols t, rows[6]? = some cols → extract_stock_data_sheet rows = .ok t →
      t.columns = cols ∧ t.records = (rows.drop 7).map (padTo cols.length)) ∧
    (∀ cols t, rows[7]? = some cols → extract_main_table_sheet rows = .ok t →
      t.columns = selectRow (mainPositions cols) cols ∧
        t.records = ((rows.drop 8).map (padTo cols.length)).map
          (selectRow (mainPositions cols))) := by
  refine ⟨fun cols t hc he => ?_, fun cols t hc he => ?_,
    fun cols t hc he => ?_, fun cols t hc he => ?_⟩
  · unfold extract_data_sheet at he
    rw [hc] at he
    exact ⟨(mkDataFrame_ok he).1, (mkDataFrame_ok he).2.1⟩
  · unfold extract_typical_levels_sheet at he
    rw [hc] at he
    obtain ⟨t0, h0, rfl⟩ := except_map_ok he
    obtain ⟨hcols, hrec, -⟩ := mkDataFrame_ok h0
    constructor
    · simpa [dropnaRecords] using hcols
    · simp [dropnaRecords, hrec, hcols]
  · unfold extract_stock_data_sheet at he
    rw [hc] at he
    exact ⟨(mkDataFrame_ok he).1, (mkDataFrame_ok he).2.1⟩
  · unfold extract_main_table_sheet at he
    rw [hc] at he
    obtain ⟨t0, h0, rfl⟩ := except_map_ok he
    obtain ⟨hcols, hrec, -⟩ := mkDataFrame_ok h0
    constructor
    · simp [mainTrim, hcols]
    · simp [mainTrim, hrec, hcols]

def c1rows : List RawRow := List.replicate 10 [some "A", some "B"]

def c1tabD : Table := ⟨[some "A", some "B"], List.replicate 3 [some "A", some "B"]⟩

def c1tabT : Table := ⟨[some "A", some "B"], [[some "A", some "B"]]⟩

def c1tabM : Table := ⟨[], [[], []]⟩

theorem c1_header_offsets_witness :
    (c1tabD.columns = [some "A", some "B"] ∧
      c1tabD.records = (c1rows.drop 7).map (padTo ([some "A", some "B"] : List Cell).length)) ∧
    (c1tabT.columns = [some "A", some "B"] ∧
      c1tabT.records = (((c1rows.drop 9).map
        (padTo ([some "A", some "B"] : List Cell).length)).filter rowComplete)) ∧
    (c1tabD.columns = [some "A", some "B"] ∧
      c1tabD.records = (c1rows.drop 7).map (padTo ([some "A", some "B"] : List Cell).length)) ∧
    (c1tabM.columns = selectRow (mainPositions [some "A", some "B"]) [some "A", some "B"] ∧
      c1tabM.records = ((c1rows.drop 8).map
        (padTo ([some "A", some "B"] : List Cell).length)).map
          (selectRow (mainPositions [some "A", some "B"]))) := by
  have h := c1_header_offsets c1rows
  exact ⟨h.1 _ c1tabD rfl rfl, h.2.1 _ c1tabT rfl rfl,
    h.2.2.1 _ c1tabD rfl rfl, h.2.2.2 _ c1tabM rfl rfl⟩

/-! ### C10, C9 -/

/-- C10: the "Data" and "Stock data" extraction rules are extensionally
equal — on every row sequence they produce the same result. -/
theorem c10_data_stock_equal (rows : List RawRow) :
    extract_data_sheet rows = extract_stock_data_sheet rows := rfl

/-- C9: each of the four extractors is a pure, deterministic function of
the row sequence: two runs on the same input that both succeed yield the
same Table (same columns, same records). -/
theorem c9_extractors_deterministic (rows : List RawRow) :
    (∀ t t', extract_data_sheet rows = .ok t → extract_data_sheet rows = .ok t' →
      t.columns = t'.columns ∧ t.records = t'.records) ∧
    (∀ t t', extract_typical_levels_sheet rows = .ok t →
      extract_typical_levels_sheet rows = .ok t' →
      t.columns = t'.columns ∧ t.records = t'.records) ∧
    (∀ t t', extract_stock_data_sheet rows = .ok t →
      extract_stock_data_sheet rows = .ok t' →
      t.columns = t'.columns ∧ t.records = t'.records) ∧
    (∀ t t', extract_main_table_sheet rows = .ok t →
      extract_main_table_sheet rows = .ok t' →
      t.columns = t'.columns ∧ t.records = t'.records) := by
  refine ⟨fun t t' h h' => ?_, fun t t' h h' => ?_,
    fun t t' h h' => ?_, fun t t' h h' => ?_⟩ <;>
  · rw [h] at h'
    cases h'
    exact ⟨rfl, rfl⟩

def c9rows : List RawRow := List.replicate 10 [some "A", some "B"]

def c9tabD : Table := ⟨[some "A", some "B"], List.replicate 3 [some "A", some "B"]⟩

def c9tabT : Table := ⟨[some "A", some "B"], [[some "A", some "B"]]⟩

def c9tabM : Table := ⟨[], [[], []]⟩

theorem c9_extractors_deterministic_witness :
    (c9tabD.columns = c9tabD.columns ∧ c9tabD.records = c9tabD.records) ∧
    (c9tabT.columns = c9tabT.columns ∧ c9tabT.records = c9tabT.records) ∧
    (c9tabD.columns = c9tabD.columns ∧ c9tabD.records = c9tabD.records) ∧
    (c9tabM.columns = c9tabM.columns ∧ c9tabM.records = c9tabM.records) := by
  have h := c9_extractors_deterministic c9rows
  exact ⟨h.1 c9tabD c9tabD rfl rfl, h.2.1 c9tabT c9tabT rfl rfl,
    h.2.2.1 c9tabD c9tabD rfl rfl, h.2.2.2 c9tabM c9tabM rfl rfl⟩

/-! ### C4 -/

theorem getElem?_none_of_short {rows : List RawRow} {i : Nat}
    (h : rows.length ≤ i) : rows[i]? = none := by
  exact List.getElem?_eq_none h

/-- C4: a row sequence with fewer than `offset + 1` rows makes every
extractor fail with `MalformedSheet`, and the dispatcher does not catch
the failure: a workbook whose "Main table" sheet is that short makes
`extract_data_from_excel` return `MalformedSheet` itself. -/
theorem c4_malformed_sheet (rows : List RawRow) :
    (rows.length < 7 → extract_data_sheet rows = .error .MalformedSheet) ∧
    (rows.length < 9 → extract_typical_levels_sheet rows = .error .MalformedSheet) ∧
    (rows.length < 7 → extract_stock_data_sheet rows = .error .MalformedSheet) ∧
    (rows.length < 8 → extract_main_table_sheet rows = .error .MalformedSheet) ∧
    (∀ wb : Workbook, lookupSheet wb "Main table" = some rows → rows.length < 8 →
      extract_data_from_excel wb = .error .MalformedSheet) := by
  refine ⟨fun h => ?_, fun h => ?_, fun h => ?_, fun h => ?_, fun wb hwb h => ?_⟩
  · unfold extract_data_sheet
    rw [getElem?_none_of_short (by omega)]
  · unfold extract_typical_levels_sheet
    rw [getElem?_none_of_short (by omega)]
  · unfold extract_stock_data_sheet
    rw [getElem?_none_of_short (by omega)]
  · unfold extract_main_table_sheet
    rw [getElem?_none_of_short (by omega)]
  · have hmain : extract_main_table_sheet rows = .error .MalformedSheet := by
      unfold extract_main_table_sheet
      rw [getElem?_none_of_short (by omega)]
    unfold extract_data_from_excel sheetRegistry
    simp only [List.foldlM]
    unfold dispatchStep
    simp only [hwb, hmain, Except.map]
    rfl

def c4rows : List RawRow := List.replicate 3 []

def c4wb : Workbook := [("Main table", c4rows)]

theorem c4_malformed_sheet_witness :
    extract_data_sheet c4rows = .error .MalformedSheet ∧
    extract_typical_levels_sheet c4rows = .error .MalformedSheet ∧
    extract_stock_data_sheet c4rows = .error .MalformedSheet ∧
    extract_main_table_sheet c4rows = .error .MalformedSheet ∧
    extract_data_from_excel c4wb = .error .MalformedSheet := by
  have h := c4_malformed_sheet c4rows
  exact ⟨h.1 (by decide), h.2.1 (by decide), h.2.2.1 (by decide),
    h.2.2.2.1 (by decide), h.2.2.2.2 c4wb rfl (by decide)⟩

/-! ### C5 -/

/-- C5: in the "Typical levels" extractor's output, the records are
exactly the aligned candidate records with every record containing an
empty value removed — complete records are kept unchanged, in their
original relative order, and no kept record contains an empty value. -/
theorem c5_typical_drops_incomplete (rows : List RawRow) (cols : RawRow) (t : Table)
    (hc : rows[8]? = some cols) (he : extract_typical_levels_sheet rows = .ok t) :
    t.records = ((rows.drop 9).map (padTo cols.length)).filter rowComplete ∧
    ∀ r ∈ t.records, rowComplete r = true := by
  unfold extract_typical_levels_sheet at he
  rw [hc] at he
  obtain ⟨t0, h0, rfl⟩ := except_map_ok he
  obtain ⟨hcols, hrec, -⟩ := mkDataFrame_ok h0
  constructor
  · simp [dropnaRecords, hrec, hcols]
  · intro r hr
    simp only [dropnaRecords] at hr
    exact (List.mem_filter.mp hr).2

def c5rows : List RawRow :=
  List.replicate 8 [] ++ [[some "A", some "B"], [some "x", some "y"], [some "x", none]]

def c5tab : Table := ⟨[some "A", some "B"], [[some "x", some "y"]]⟩

theorem c5_typical_drops_incomplete_witness :
    c5tab.records =
      ((c5rows.drop 9).map (padTo ([some "A", some "B"] : List Cell).length)).filter
        rowComplete :=
  (c5_typical_drops_incomplete c5rows [some "A", some "B"] c5tab rfl rfl).1

/-! ### C6 -/

def c6rows : List RawRow := List.replicate 6 []

/-- C6 counterexample: a row sequence of exactly `offset` rows (6 rows for
the "Data" sheet) does not succeed with an empty Table — the header row at
offset 6 is missing, so extraction fails with `MalformedSheet`. -/
theorem c6_counterexample :
    extract_data_sheet c6rows = .error ExtractErr.MalformedSheet := rfl

/-- C6 amended: a row sequence of exactly `offset + 1` rows (the filler
rows plus the header row, no data rows) succeeds for each of the four
extractors, with the Header taken from the row at the offset (after the
"Main table" trailing-column selection, where applicable) and zero
records. -/
theorem c6_amended (rows : List RawRow) (cols : RawRow) :
    (rows.length = 7 → rows[6]? = some cols →
      extract_data_sheet rows = .ok ⟨cols, []⟩ ∧
        extract_stock_data_sheet rows = .ok ⟨cols, []⟩) ∧
    (rows.length = 9 → rows[8]? = some cols →
      extract_typical_levels_sheet rows = .ok ⟨cols, []⟩) ∧
    (rows.length = 8 → rows[7]? = some cols →
      extract_main_table_sheet rows = .ok ⟨selectRow (mainPositions cols) cols, []⟩) := by
  refine ⟨fun hl hc => ?_, fun hl hc => ?_, fun hl hc => ?_⟩
  · have hd : rows.drop 7 = [] := List.drop_eq_nil_of_le (by omega)
    constructor
    · unfold extract_data_sheet
      rw [hc, hd]
      rfl
    · unfold extract_stock_data_sheet
      rw [hc, hd]
      rfl
  · have hd : rows.drop 9 = [] := List.drop_eq_nil_of_le (by omega)
    unfold extract_typical_levels_sheet
    rw [hc, hd]
    rfl
  · have hd : rows.drop 8 = [] := List.drop_eq_nil_of_le (by omega)
    unfold extract_main_table_sheet
    rw [hc, hd]
    rfl

def c6rowsD : List RawRow := List.replicate 6 [] ++ [[some "H"]]

def c6rowsT : List RawRow := List.replicate 8 [] ++ [[some "H"]]

def c6rowsM : List RawRow := List.replicate 7 [] ++ [[some "H"]]

theorem c6_amended_witness :
    extract_data_sheet c6rowsD = .ok ⟨[some "H"], []⟩ ∧
    extract_stock_data_sheet c6rowsD = .ok ⟨[some "H"], []⟩ ∧
    extract_typical_levels_sheet c6rowsT = .ok ⟨[some "H"], []⟩ ∧
    extract_main_table_sheet c6rowsM =
      .ok ⟨selectRow (mainPositions [some "H"]) [some "H"], []⟩ := by
  refine ⟨((c6_amended c6rowsD [some "H"]).1 (by decide) rfl).1,
    ((c6_amended c6rowsD [some "H"]).1 (by decide) rfl).2,
    (c6_amended c6rowsT [some "H"]).2.1 (by decide) rfl,
    (c6_amended c6rowsM [some "H"]).2.2 (by decide) rfl⟩

/-! ### C8 -/

theorem selectRow_length (ps : List Nat) (r : List Cell) :
    (selectRow ps r).length = ps.length := by
  simp [selectRow]

def c8rows : List RawRow := List.replicate 6 [] ++ [[some "A", some "B"], [some "x"]]

/-- C8 counterexample: when every candidate data row is shorter than the
Header (here a 2-column header over a single 1-cell row), the pandas
constructor raises `ValueError` instead of padding, so extraction fails
and no record is produced at all. -/
theorem c8_counterexample :
    extract_data_sheet c8rows = .error ExtractErr.ColumnMismatch := rfl

/-- C8 amended: whenever extraction succeeds (which requires the widest
candidate row to have exactly the Header's width), rows shorter than the
Header are completed with empty trailing cells, and every resulting
record has exactly one value per output column; if every row is shorter
than the Header the constructor fails instead. -/
theorem c8_amended (rows : List RawRow) :
    (∀ cols t, rows[6]? = some cols → extract_data_sheet rows = .ok t →
      t.records = (rows.drop 7).map (padTo cols.length) ∧
      ∀ r ∈ t.records, r.length = t.columns.length) ∧
    (∀ cols t, rows[8]? = some cols → extract_typical_levels_sheet rows = .ok t →
      t.records = ((rows.drop 9).map (padTo cols.length)).filter rowComplete ∧
      ∀ r ∈ t.records, r.length = t.columns.length) ∧
    (∀ cols t, rows[6]? = some cols → extract_stock_data_sheet rows = .ok t →
      t.records = (rows.drop 7).map (padTo cols.length) ∧
      ∀ r ∈ t.records, r.length = t.columns.length) ∧
    (∀ cols t, rows[7]? = some cols → extract_main_table_sheet rows = .ok t →
      ∀ r ∈ t.records, r.length = t.columns.length) := by
  refine ⟨fun cols t hc he => ?_, fun cols t hc he => ?_,
    fun cols t hc he => ?_, fun cols t hc he => ?_⟩
  · unfold extract_data_sheet at he
    rw [hc] at he
    obtain ⟨hcols, hrec, -⟩ := mkDataFrame_ok he
    refine ⟨hrec, fun r hr => ?_⟩
    rw [hcols]
    exact mkDataFrame_record_length he r hr
  · unfold extract_typical_levels_sheet at he
    rw [hc] at he
    obtain ⟨t0, h0, rfl⟩ := except_map_ok he
    obtain ⟨hcols, hrec, -⟩ := mkDataFrame_ok h0
    constructor
    · simp [dropnaRecords, hrec, hcols]
    · intro r hr
      simp only [dropnaRecords] at hr
      have hr0 : r ∈ t0.records := List.mem_of_mem_filter hr
      have := mkDataFrame_record_length h0 r hr0
      simpa [dropnaRecords, hcols] using this
  · unfold extract_stock_data_sheet at he
    rw [hc] at he
    obtain ⟨hcols, hrec, -⟩ := mkDataFrame_ok he
    refine ⟨hrec, fun r hr => ?_⟩
    rw [hcols]
    exact mkDataFrame_record_length he r hr
  · unfold extract_main_table_sheet at he
    rw [hc] at he
    obtain ⟨t0, h0, rfl⟩ := except_map_ok he
    intro r hr
    simp only [mainTrim, List.mem_map] at hr
    obtain ⟨r0, -, rfl⟩ := hr
    simp [mainTrim, selectRow_length]

def c8okRows : List RawRow :=
  List.replicate 6 [] ++ [[some "A", some "B"], [some "x", some "y"], [some "z"]]

def c8okTab : Table := ⟨[some "A", some "B"], [[some "x", some "y"], [some "z", none]]⟩

theorem c8_amended_witness :
    c8okTab.records = (c8okRows.drop 7).map (padTo ([some "A", some "B"] : List Cell).length) :=
  ((c8_amended c8okRows).1 [some "A", some "B"] c8okTab rfl rfl).1

/-! ### Label-based column selection facts (for C3) -/

theorem mem_matchIdx {cols : List Cell} {l : Cell} {j : Nat} :
    j ∈ matchIdx cols l ↔ ∃ h : j < cols.length, cols[j] = l := by
  induction cols generalizing j with
  | nil => simp [matchIdx]
  | cons c cs ih =>
    simp only [matchIdx, List.mem_append, List.mem_map]
    constructor
    · rintro (hj | ⟨j', hj', rfl⟩)
      · by_cases hc : c = l
        · rw [if_pos hc] at hj
          simp only [List.mem_singleton] at hj
          subst hj
          exact ⟨Nat.succ_pos _, hc⟩
        · rw [if_neg hc] at hj
          cases hj
      · obtain ⟨h', hget⟩ := ih.mp hj'
        refine ⟨Nat.succ_lt_succ h', ?_⟩
        simpa using hget
    · rintro ⟨h, hget⟩
      cases j with
      | zero =>
        left
        have hc : c = l := by simpa using hget
        rw [if_pos hc]
        simp
      | succ j' =>
        right
        refine ⟨j', ih.mpr ⟨Nat.lt_of_succ_lt_succ h, ?_⟩, rfl⟩
        simpa using hget

theorem matchIdx_getElem : ∀ (cols : List Cell) (i : Nat) (hi : i < cols.length),
    (∀ j (hj : j < cols.length), cols[j] = cols[i] → j = i) →
    matchIdx cols cols[i] = [i] := by
  intro cols
  induction cols with
  | nil => intro i hi _; simp at hi
  | cons c cs ih =>
    intro i hi hu
    cases i with
    | zero =>
      show matchIdx (c :: cs) c = [0]
      have hnil : matchIdx cs c = [] := by
        rw [List.eq_nil_iff_forall_not_mem]
        intro j hj
        obtain ⟨hjlt, hget⟩ := mem_matchIdx.mp hj
        have hjs : j + 1 < (c :: cs).length := by
          simp only [List.length_cons]
          omega
        have hj1 : (c :: cs)[j + 1] = (c :: cs)[0] := by simpa using hget
        have := hu (j + 1) hjs hj1
        omega
      simp [matchIdx, hnil]
    | succ i' =>
      have hlt : i' < cs.length := Nat.lt_of_succ_lt_succ hi
      show matchIdx (c :: cs) cs[i'] = [i' + 1]
      have hcne : ¬(c = cs[i']) := by
        intro hcl
        have his : i' + 1 < (c :: cs).length := by
          simp only [List.length_cons]
          omega
        have h0 : (c :: cs)[0] = (c :: cs)[i' + 1] := by simpa using hcl
        have := hu 0 (Nat.succ_pos _) h0
        omega
      have ihu : ∀ j (hj : j < cs.length), cs[j] = cs[i'] → j = i' := by
        intro j hj hg
        have hjs : j + 1 < (c :: cs).length := by
          simp only [List.length_cons]
          omega
        have his : i' + 1 < (c :: cs).length := by
          simp only [List.length_cons]
          omega
        have hj1 : (c :: cs)[j + 1] = (c :: cs)[i' + 1] := by simpa using hg
        have := hu (j + 1) hjs hj1
        omega
      have ih' := ih i' hlt ihu
      simp only [matchIdx, if_neg hcne, ih']
      simp

theorem selectPositions_append (cols l₁ l₂ : List Cell) :
    selectPositions cols (l₁ ++ l₂) = selectPositions cols l₁ ++ selectPositions cols l₂ := by
  simp [selectPositions]

theorem selectPositions_take_of_nodup {cols : List Cell} (hnd : cols.Nodup) :
    ∀ k, k ≤ cols.length → selectPositions cols (cols.take k) = List.range k := by
  intro k
  induction k with
  | zero => intro _; simp [selectPositions]
  | succ k ih =>
    intro hk
    have hklt : k < cols.length := hk
    have htake : cols.take (k + 1) = cols.take k ++ [cols[k]] := by
      rw [List.take_succ]
      simp [List.getElem?_eq_getElem hklt]
    rw [htake, selectPositions_append, ih (Nat.le_of_lt hklt)]
    have hm : matchIdx cols cols[k] = [k] := by
      apply matchIdx_getElem
      intro j hj hg
      have hinj := List.nodup_iff_injective_getElem.mp hnd
      have hfin := @hinj ⟨j, hj⟩ ⟨k, hklt⟩ hg
      exact congrArg Fin.val hfin
    simp [selectPositions, hm, List.range_succ]

theorem selectRow_range {r : List Cell} :
    ∀ k, k ≤ r.length → selectRow (List.range k) r = r.take k := by
  intro k
  induction k with
  | zero => intro _; simp [selectRow]
  | succ k ih =>
    intro hk
    have hklt : k < r.length := hk
    rw [List.range_succ]
    have hlast : r.getD k none = r[k] := List.getD_eq_getElem r none hklt
    have htake : r.take (k + 1) = r.take k ++ [r[k]] := by
      rw [List.take_succ]
      simp [List.getElem?_eq_getElem hklt]
    rw [htake, ← ih (Nat.le_of_lt hklt)]
    simp [selectRow, List.getElem?_eq_getElem hklt]

/-! ### C3 -/

def c3rows : List RawRow :=
  List.replicate 7 [] ++ [[some "A", some "B", some "A"], [some "x", some "y", some "z"]]

/-- C3 counterexample: with the duplicate header `["A", "B", "A"]` the
"Main table" trim keeps both columns labelled "A" (pandas selects columns
by label, not by position), so the output Header has 2 entries although
the raw row has 3 — not exactly two fewer. -/
theorem c3_counterexample :
    extract_main_table_sheet c3rows =
      .ok ⟨[some "A", some "A"], [[some "x", some "z"]]⟩ ∧
    (Table.mk [some "A", some "A"] [[some "x", some "z"]]).columns.length = 2 ∧
    ([some "A", some "B", some "A"] : List Cell).length - 2 = 1 := by
  exact ⟨rfl, rfl, rfl⟩

/-- C3 amended: provided the header labels are pairwise distinct, the
"Main table" extractor removes exactly the last two positional columns:
the output Header is the raw header row minus its last two entries, every
record is the corresponding aligned row minus its last two entries, and
both have exactly `cols.length - 2` entries. -/
theorem c3_amended (rows : List RawRow) (cols : RawRow) (t : Table)
    (hc : rows[7]? = some cols) (hnd : cols.Nodup)
    (he : extract_main_table_sheet rows = .ok t) :
    t.columns = cols.take (cols.length - 2) ∧
    t.columns.length = cols.length - 2 ∧
    t.records = ((rows.drop 8).map (padTo cols.length)).map
      (fun r => r.take (cols.length - 2)) ∧
    ∀ r ∈ t.records, r.length = cols.length - 2 := by
  unfold extract_main_table_sheet at he
  rw [hc] at he
  obtain ⟨t0, h0, rfl⟩ := except_map_ok he
  obtain ⟨hcols, hrec, hle⟩ := mkDataFrame_ok h0
  have hps : mainPositions cols = List.range (cols.length - 2) := by
    rw [mainPositions]
    exact selectPositions_take_of_nodup hnd _ (Nat.sub_le _ _)
  have hpadlen : ∀ r ∈ (rows.drop 8).map (padTo cols.length),
      cols.length - 2 ≤ r.length := by
    intro r hr
    obtain ⟨r0, hr0, rfl⟩ := List.mem_map.mp hr
    rw [padTo_length (hle r0 hr0)]
    exact Nat.sub_le _ _
  have hcolsel : (mainTrim t0).columns = cols.take (cols.length - 2) := by
    simp only [mainTrim, hcols, hps]
    exact selectRow_range _ (Nat.sub_le _ _)
  refine ⟨hcolsel, ?_, ?_, ?_⟩
  · rw [hcolsel, List.length_take]
    exact Nat.min_eq_left (Nat.sub_le _ _)
  · show (mainTrim t0).records = _
    simp only [mainTrim, hcols, hps, hrec]
    apply List.map_congr_left
    intro r hr
    exact selectRow_range _ (hpadlen r hr)
  · intro r hr
    simp only [mainTrim, hcols, hps, hrec, List.mem_map] at hr
    obtain ⟨r0, hr0, rfl⟩ := hr
    rw [selectRow_length, List.length_range]

def c3okRows : List RawRow :=
  List.replicate 7 [] ++ [[some "A", some "B", some "C"], [some "1", some "2", some "3"]]

def c3okTab : Table := ⟨[some "A"], [[some "1"]]⟩

theorem c3_amended_witness :
    c3okTab.columns =
      ([some "A", some "B", some "C"] : List Cell).take
        (([some "A", some "B", some "C"] : List Cell).length - 2) ∧
    c3okTab.columns.length = ([some "A", some "B", some "C"] : List Cell).length - 2 := by
  have h := c3_amended c3okRows [some "A", some "B", some "C"] c3okTab rfl (by decide) rfl
  exact ⟨h.1, h.2.1⟩

/-! ### Dispatcher facts (for C2, C7) -/

theorem except_bind_ok {α β : Type} {x : Except ExtractErr α}
    {g : α → Except ExtractErr β} {b : β}
    (h : (x >>= g) = .ok b) : ∃ a, x = .ok a ∧ g a = .ok b := by
  cases x with
  | error e => simp [Bind.bind, Except.bind] at h
  | ok a =>
    refine ⟨a, rfl, ?_⟩
    simpa [Bind.bind, Except.bind] using h

theorem dispatchStep_ok {wb : Workbook} {st st' : ExtractionResult}
    {entry : String × (List RawRow → Except ExtractErr Table)}
    (h : dispatchStep wb st entry = .ok st') :
    ∃ rows t, lookupSheet wb entry.1 = some rows ∧ entry.2 rows = .ok t ∧
      st' = includeStep st entry.1 t := by
  unfold dispatchStep at h
  cases hl : lookupSheet wb entry.1 with
  | none => rw [hl] at h; cases h
  | some rows =>
    rw [hl] at h
    obtain ⟨t, ht, hb⟩ := except_map_ok h
    exact ⟨rows, t, rfl, ht, hb.symm⟩

theorem dispatch_ok {wb : Workbook} {res : ExtractionResult}
    (h : extract_data_from_excel wb = .ok res) :
    ∃ rM tM rT tT rD tD rS tS,
      lookupSheet wb "Main table" = some rM ∧ extract_main_table_sheet rM = .ok tM ∧
      lookupSheet wb "Typical levels" = some rT ∧
        extract_typical_levels_sheet rT = .ok tT ∧
      lookupSheet wb "Data" = some rD ∧ extract_data_sheet rD = .ok tD ∧
      lookupSheet wb "Stock data" = some rS ∧ extract_stock_data_sheet rS = .ok tS ∧
      res = includeStep (includeStep (includeStep (includeStep
        ⟨initialMapping, []⟩ "Main table" tM) "Typical levels" tT) "Data" tD)
        "Stock data" tS := by
  unfold extract_data_from_excel sheetRegistry at h
  simp only [List.foldlM] at h
  obtain ⟨s1, h1, h⟩ := except_bind_ok h
  obtain ⟨s2, h2, h⟩ := except_bind_ok h
  obtain ⟨s3, h3, h⟩ := except_bind_ok h
  obtain ⟨s4, h4, h⟩ := except_bind_ok h
  have hres : s4 = res := by
    simpa [Pure.pure, Except.pure] using h
  subst hres
  obtain ⟨rM, tM, hlM, heM, hs1⟩ := dispatchStep_ok h1
  subst hs1
  obtain ⟨rT, tT, hlT, heT, hs2⟩ := dispatchStep_ok h2
  subst hs2
  obtain ⟨rD, tD, hlD, heD, hs3⟩ := dispatchStep_ok h3
  subst hs3
  obtain ⟨rS, tS, hlS, heS, hs4⟩ := dispatchStep_ok h4
  subst hs4
  exact ⟨rM, tM, rT, tT, rD, tD, rS, tS, hlM, heM, hlT, heT, hlD, heD, hlS, heS, rfl⟩

theorem lookup_updateMapping_ne (m : List (String × Option Table)) (k k' : String)
    (v : Option Table) (h : k ≠ k') :
    List.lookup k (updateMapping m k' v) = List.lookup k m := by
  induction m with
  | nil => rfl
  | cons p ps ih =>
    obtain ⟨a, b⟩ := p
    simp only [updateMapping, List.map_cons] at *
    cases hak : a == k' with
    | true =>
      have ha : a = k' := eq_of_beq hak
      have hka : (k == a) = false := by
        apply beq_eq_false_iff_ne.mpr
        intro he
        exact h (he.trans ha)
      rw [if_pos rfl]
      simp only [List.lookup_cons, hka]
      exact ih
    | false =>
      rw [if_neg (by simp)]
      cases hka : k == a with
      | true => simp only [List.lookup_cons, hka]
      | false =>
        simp only [List.lookup_cons, hka]
        exact ih

theorem lookup_updateMapping_self (m : List (String × Option Table)) (k : String)
    (v : Option Table) (h : (List.lookup k m).isSome) :
    List.lookup k (updateMapping m k v) = some v := by
  induction m with
  | nil => simp [List.lookup] at h
  | cons p ps ih =>
    obtain ⟨a, b⟩ := p
    simp only [updateMapping, List.map_cons] at *
    cases hka : k == a with
    | true =>
      have ha : a = k := (eq_of_beq hka).symm
      have hak : (a == k) = true := by
        subst ha
        simp
      rw [if_pos hak]
      simp only [List.lookup_cons, hka]
    | false =>
      have hak : (a == k) = false := by
        apply beq_eq_false_iff_ne.mpr
        intro he
        have hsym : (k == a) = true := by
          subst he
          simp
        rw [hsym] at hka
        cases hka
      have hak' : ¬((a == k) = true) := by
        simp [hak]
      simp only [List.lookup_cons, hka] at h
      rw [if_neg hak']
      simp only [List.lookup_cons, hka]
      exact ih h

theorem includeStep_mapping_ne {st : ExtractionResult} {name : String} {t : Table}
    (k : String) (h : k ≠ name) :
    List.lookup k (includeStep st name t).mapping = List.lookup k st.mapping := by
  cases he : tableEmpty t with
  | true => simp [includeStep, he]
  | false => simp [includeStep, he, lookup_updateMapping_ne st.mapping k name (some t) h]

theorem includeStep_warnings_mono {st : ExtractionResult} {name : String} {t : Table}
    {k : String} (h : k ∈ st.warnings) : k ∈ (includeStep st name t).warnings := by
  cases he : tableEmpty t with
  | true =>
    simp only [includeStep, he, if_true]
    exact List.mem_append_left _ h
  | false => simpa [includeStep, he] using h

theorem includeStep_warnings_self {st : ExtractionResult} {name : String} {t : Table}
    (he : tableEmpty t = true) : name ∈ (includeStep st name t).warnings := by
  simp [includeStep, he]

theorem includeStep_mapping_empty {st : ExtractionResult} {name : String} {t : Table}
    (he : tableEmpty t = true) : (includeStep st name t).mapping = st.mapping := by
  simp [includeStep, he]

theorem includeStep_mapping_nonempty {st : ExtractionResult} {name : String} {t : Table}
    (he : tableEmpty t = false) :
    (includeStep st name t).mapping = updateMapping st.mapping name (some t) := by
  simp [includeStep, he]

theorem dispatch_sheet_status {wb : Workbook} {res : ExtractionResult}
    (h : extract_data_from_excel wb = .ok res) (name : String)
    (f : List RawRow → Except ExtractErr Table) (hmem : (name, f) ∈ sheetRegistry) :
    ∃ rows t, lookupSheet wb name = some rows ∧ f rows = .ok t ∧
      (tableEmpty t = true → List.lookup name res.mapping = some none ∧
        name ∈ res.warnings) ∧
      (tableEmpty t = false → List.lookup name res.mapping = some (some t)) := by
  obtain ⟨rM, tM, rT, tT, rD, tD, rS, tS, hlM, heM, hlT, heT, hlD, heD, hlS, heS, hres⟩ :=
    dispatch_ok h
  subst hres
  simp only [sheetRegistry, List.mem_cons, List.not_mem_nil, or_false] at hmem
  rcases hmem with hmem | hmem | hmem | hmem <;>
    (rw [Prod.mk.injEq] at hmem; obtain ⟨rfl, rfl⟩ := hmem)
  · refine ⟨rM, tM, hlM, heM, fun he => ?_, fun he => ?_⟩
    · constructor
      · rw [includeStep_mapping_ne _ (by decide), includeStep_mapping_ne _ (by decide),
          includeStep_mapping_ne _ (by decide), includeStep_mapping_empty he]
        rfl
      · exact includeStep_warnings_mono (includeStep_warnings_mono
          (includeStep_warnings_mono (includeStep_warnings_self he)))
    · rw [includeStep_mapping_ne _ (by decide), includeStep_mapping_ne _ (by decide),
        includeStep_mapping_ne _ (by decide), includeStep_mapping_nonempty he]
      exact lookup_updateMapping_self _ _ _ (by rfl)
  · refine ⟨rT, tT, hlT, heT, fun he => ?_, fun he => ?_⟩
    · have hbase : List.lookup "Typical levels"
          (includeStep ⟨initialMapping, []⟩ "Main table" tM).mapping = some none := by
        rw [includeStep_mapping_ne _ (by decide)]
        rfl
      constructor
      · rw [includeStep_mapping_ne _ (by decide), includeStep_mapping_ne _ (by decide),
          includeStep_mapping_empty he]
        exact hbase
      · exact includeStep_warnings_mono (includeStep_warnings_mono
          (includeStep_warnings_self he))
    · have hbase : List.lookup "Typical levels"
          (includeStep ⟨initialMapping, []⟩ "Main table" tM).mapping = some none := by
        rw [includeStep_mapping_ne _ (by decide)]
        rfl
      rw [includeStep_mapping_ne _ (by decide), includeStep_mapping_ne _ (by decide),
        includeStep_mapping_nonempty he]
      apply lookup_updateMapping_self
      rw [hbase]
      rfl
  · refine ⟨rD, tD, hlD, heD, fun he => ?_, fun he => ?_⟩
    · have hbase : List.lookup "Data"
          (includeStep (includeStep ⟨initialMapping, []⟩ "Main table" tM)
            "Typical levels" tT).mapping = some none := by
        rw [includeStep_mapping_ne _ (by decide), includeStep_mapping_ne _ (by decide)]
        rfl
      constructor
      · rw [includeStep_mapping_ne _ (by decide), includeStep_mapping_empty he]
        exact hbase
      · exact includeStep_warnings_mono (includeStep_warnings_self he)
    · have hbase : List.lookup "Data"
          (includeStep (includeStep ⟨initialMapping, []⟩ "Main table" tM)
            "Typical levels" tT).mapping = some none := by
        rw [includeStep_mapping_ne _ (by decide), includeStep_mapping_ne _ (by decide)]
        rfl
      rw [includeStep_mapping_ne _ (by decide), includeStep_mapping_nonempty he]
      apply lookup_updateMapping_self
      rw [hbase]
      rfl
  · refine ⟨rS, tS, hlS, heS, fun he => ?_, fun he => ?_⟩
    · have hbase : List.lookup "Stock data"
          (includeStep (includeStep (includeStep ⟨initialMapping, []⟩
            "Main table" tM) "Typical levels" tT) "Data" tD).mapping = some none := by
        rw [includeStep_mapping_ne _ (by decide), includeStep_mapping_ne _ (by decide),
          includeStep_mapping_ne _ (by decide)]
        rfl
      constructor
      · rw [includeStep_mapping_empty he]
        exact hbase
      · exact includeStep_warnings_self he
    · have hbase : List.lookup "Stock data"
          (includeStep (includeStep (includeStep ⟨initialMapping, []⟩
            "Main table" tM) "Typical levels" tT) "Data" tD).mapping = some none := by
        rw [includeStep_mapping_ne _ (by decide), includeStep_mapping_ne _ (by decide),
          includeStep_mapping_ne _ (by decide)]
        rfl
      rw [includeStep_mapping_nonempty he]
      apply lookup_updateMapping_self
      rw [hbase]
      rfl

/-! ### C2 -/

def c2mainRows : List RawRow :=
  List.replicate 7 [] ++
    [[some "A", some "B", some "C", some "D"], [some "1", some "2", some "3", some "4"]]

def c2typicalRows : List RawRow :=
  List.replicate 8 [] ++ [[some "X", some "Y"], [some "p", some "q"]]

def c2dataRows : List RawRow := List.replicate 6 [] ++ [[some "H1", some "H2"]]

def c2stockRows : List RawRow := List.replicate 6 [] ++ [[some "S"], [some "v"]]

def c2wb : Workbook :=
  [("Main table", c2mainRows), ("Typical levels", c2typicalRows),
   ("Data", c2dataRows), ("Stock data", c2stockRows)]

def c2res : ExtractionResult :=
  ⟨[("Main table", some ⟨[some "A", some "B"], [[some "1", some "2"]]⟩),
    ("Typical levels", some ⟨[some "X", some "Y"], [[some "p", some "q"]]⟩),
    ("Data", none),
    ("Stock data", some ⟨[some "S"], [[some "v"]]⟩)],
   ["Data"]⟩

/-- C2 counterexample: in this workbook the "Data" sheet extracts a
zero-record Table, yet the dispatcher's result still CONTAINS "Data" as a
key — mapped to the `None` placeholder the dict was initialised with —
rather than omitting the sheet from the mapping. -/
theorem c2_counterexample :
    extract_data_from_excel c2wb = .ok c2res ∧
    List.lookup "Data" c2res.mapping = some none := ⟨rfl, rfl⟩

/-- C2 amended: for every registered sheet, when its extractor returns an
empty Table the dispatcher's result still contains that sheet name as a
key, mapped to the `None` placeholder (and the sheet name is logged as a
warning); otherwise the result maps the sheet name to its Table. -/
theorem c2_amended {wb : Workbook} {res : ExtractionResult}
    (h : extract_data_from_excel wb = .ok res) (name : String)
    (f : List RawRow → Except ExtractErr Table) (hmem : (name, f) ∈ sheetRegistry) :
    ∃ rows t, lookupSheet wb name = some rows ∧ f rows = .ok t ∧
      (tableEmpty t = true → List.lookup name res.mapping = some none ∧
        name ∈ res.warnings) ∧
      (tableEmpty t = false → List.lookup name res.mapping = some (some t)) :=
  dispatch_sheet_status h name f hmem

theorem c2_amended_witness :
    List.lookup "Data" c2res.mapping = some none ∧ "Data" ∈ c2res.warnings := by
  obtain ⟨rows, t, hl, he, hemp, -⟩ :=
    @c2_amended c2wb c2res rfl "Data" extract_data_sheet
      (List.Mem.tail _ (List.Mem.tail _ (List.Mem.head _)))
  have hr : some rows = some c2dataRows := hl.symm.trans rfl
  injection hr with hr
  subst hr
  have ht : Except.ok t =
      Except.ok (⟨[some "H1", some "H2"], []⟩ : Table) := he.symm.trans rfl
  injection ht with ht
  subst ht
  exact hemp rfl

/-! ### C7 -/

theorem maxWidth_of_allEq {data : List RawRow} {n : Nat} (hne : data ≠ [])
    (hall : ∀ r ∈ data, r.length = n) : maxWidth data = n := by
  induction data with
  | nil => cases hne rfl
  | cons d ds ih =>
    by_cases hds : ds = []
    · subst hds
      simp only [maxWidth, List.foldr_cons, List.foldr_nil]
      rw [hall d (List.Mem.head _)]
      omega
    · have hd : d.length = n := hall d (List.Mem.head _)
      have hds' : maxWidth ds = n := ih hds (fun r hr => hall r (List.Mem.tail _ hr))
      simp only [maxWidth, List.foldr_cons] at *
      omega

def c7rows : List RawRow :=
  List.replicate 6 [] ++ [[some "H1", some "H2"], [none, none], [none, none]]

/-- C7 counterexample: a "Data" sheet whose data rows after the header are
all fully empty does not yield a zero-record Table — the explicitly
present empty rows become records of empty cells, so the dispatcher would
include this sheet rather than omit it. -/
theorem c7_counterexample :
    extract_data_sheet c7rows =
      .ok ⟨[some "H1", some "H2"], [[none, none], [none, none]]⟩ ∧
    (Table.mk [some "H1", some "H2"] [[none, none], [none, none]]).records.length = 2 := by
  exact ⟨rfl, rfl⟩

/-- C7 amended: for the "Typical levels" sheet (whose extractor drops
incomplete records), data rows that are all fully empty (and match a
non-empty header's width) yield a zero-record Table; and whenever the
dispatcher completes with a zero-record "Typical levels" extraction, its
result keeps "Typical levels" as a key mapped to the `None` placeholder
and logs a warning for it instead of raising an error. -/
theorem c7_amended :
    (∀ (rows : List RawRow) (cols : RawRow), rows[8]? = some cols →
      0 < cols.length →
      (∀ r ∈ rows.drop 9, r.length = cols.length ∧ ∀ c ∈ r, c = none) →
      extract_typical_levels_sheet rows = .ok ⟨cols, []⟩) ∧
    (∀ (wb : Workbook) (res : ExtractionResult) (rows : List RawRow) (t : Table),
      extract_data_from_excel wb = .ok res →
      lookupSheet wb "Typical levels" = some rows →
      extract_typical_levels_sheet rows = .ok t → t.records = [] →
      List.lookup "Typical levels" res.mapping = some none ∧
        "Typical levels" ∈ res.warnings) := by
  constructor
  · intro rows cols hc hpos hall
    unfold extract_typical_levels_sheet
    rw [hc]
    change Except.map dropnaRecords (mkDataFrame (rows.drop 9) cols) = _
    cases hdn : rows.drop 9 with
    | nil => rfl
    | cons r rs =>
      rw [hdn] at hall
      have hw : maxWidth (r :: rs) = cols.length :=
        maxWidth_of_allEq (by simp) (fun r' hr' => (hall r' hr').1)
      have hmk : mkDataFrame (r :: rs) cols =
          .ok ⟨cols, (r :: rs).map (padTo cols.length)⟩ := by
        unfold mkDataFrame
        rw [if_neg (by simp), if_neg (by simp [hw])]
      rw [hmk]
      simp only [Except.map]
      have hfil : ((r :: rs).map (padTo cols.length)).filter rowComplete = [] := by
        apply List.filter_eq_nil_iff.mpr
        intro a ha
        obtain ⟨r0, hr0, rfl⟩ := List.mem_map.mp ha
        obtain ⟨hlen, hnone⟩ := hall r0 hr0
        rw [padTo_eq_self hlen]
        cases r0 with
        | nil =>
          have h0 : List.length cols = 0 := by simpa using hlen.symm
          omega
        | cons c cs =>
          have hcn : c = none := hnone c (List.Mem.head _)
          subst hcn
          simp [rowComplete]
      have hdrop : dropnaRecords ⟨cols, (r :: rs).map (padTo cols.length)⟩ =
          (⟨cols, []⟩ : Table) := by
        simp only [dropnaRecords]
        rw [hfil]
      rw [hdrop]
  · intro wb res rows t h hlook he hrec
    obtain ⟨rows', t', hl', he', hemp, -⟩ := dispatch_sheet_status h "Typical levels"
      extract_typical_levels_sheet (List.Mem.tail _ (List.Mem.head _))
    have hr : some rows' = some rows := hl'.symm.trans hlook
    injection hr with hr
    subst hr
    have ht : Except.ok t' = Except.ok t := he'.symm.trans he
    injection ht with ht
    subst ht
    apply hemp
    simp [tableEmpty, hrec]

def c7wRows : List RawRow := List.replicate 8 [] ++ [[some "X"], [none]]

def c7wMainRows : List RawRow :=
  List.replicate 7 [] ++
    [[some "A", some "B", some "C", some "D"], [some "1", some "2", some "3", some "4"]]

def c7wDataRows : List RawRow := List.replicate 6 [] ++ [[some "H"], [some "v"]]

def c7wStockRows : List RawRow := List.replicate 6 [] ++ [[some "K"], [some "w"]]

def c7wb : Workbook :=
  [("Main table", c7wMainRows), ("Typical levels", c7wRows),
   ("Data", c7wDataRows), ("Stock data", c7wStockRows)]

def c7res : ExtractionResult :=
  ⟨[("Main table", some ⟨[some "A", some "B"], [[some "1", some "2"]]⟩),
    ("Typical levels", none),
    ("Data", some ⟨[some "H"], [[some "v"]]⟩),
    ("Stock data", some ⟨[some "K"], [[some "w"]]⟩)],
   ["Typical levels"]⟩

theorem c7_amended_witness :
    extract_typical_levels_sheet c7wRows = .ok ⟨[some "X"], []⟩ ∧
    List.lookup "Typical levels" c7res.mapping = some none ∧
    "Typical levels" ∈ c7res.warnings := by
  refine ⟨c7_amended.1 c7wRows [some "X"] rfl (by decide) (by decide), ?_, ?_⟩
  · exact (c7_amended.2 c7wb c7res c7wRows ⟨[some "X"], []⟩ rfl rfl rfl rfl).1
  · exact (c7_amended.2 c7wb c7res c7wRows ⟨[some "X"], []⟩ rfl rfl rfl rfl).2
